import Mathlib

/-!
Verification of the reaction-cut submission/recorder core.

The definitions below are shallow embeddings of functions from
`src/src-tauri/src/commands/submission.rs` and
`src/src-tauri/src/live_recorder.rs`.  Machine integers are modelled as
`Nat`/`Int`; saturating arithmetic is modelled with `min`/truncated
subtraction, and wrapping conversions carry an explicit `% 2 ^ w`.
Fallible code returns `Except String`.  Definitions keep the source
names where Lean allows it.  Definitions whose names end in `_spec` or
that live in the `Spec` namespace are transcriptions of the natural
language specification, used as comparison targets.
-/

namespace ReactionCut

/-! ### Remote submission batching (submission.rs, submit_video_in_batches /
submit_video_update_in_batches) -/

/-- MAX_PARTS_PER_SUBMISSION from submission.rs line 2955. -/
def MAX_PARTS_PER_SUBMISSION : Nat := 100

/-- One remote call issued while submitting: a create call (`/x/vu/web/add/v3`)
or an edit call (`/x/vu/web/edit`), each carrying the list of parts in its
`videos` payload. -/
inductive SubmitCall (α : Type) where
  | create (parts : List α)
  | edit (parts : List α)
deriving DecidableEq, Repr

/-- The while-loop of `submit_video_in_batches` (lines 4576-4596): starting
from `end_index`, repeatedly issue an edit call with the parts
`1..=min(end_index+100, N)` until the whole list is covered. -/
def submitEditChain (parts : List α) (end_index : Nat) : List (SubmitCall α) :=
  if _h : end_index < parts.length then
    let next_end := min (end_index + MAX_PARTS_PER_SUBMISSION) parts.length
    SubmitCall.edit (parts.take next_end) :: submitEditChain parts next_end
  else []
termination_by parts.length - end_index
decreasing_by
  simp only [MAX_PARTS_PER_SUBMISSION]
  omega

/-- Call sequence issued by `submit_video_in_batches` (lines 4549-4599). -/
def submit_video_in_batches (parts : List α) : List (SubmitCall α) :=
  if parts.length ≤ MAX_PARTS_PER_SUBMISSION then
    [SubmitCall.create parts]
  else
    SubmitCall.create (parts.take MAX_PARTS_PER_SUBMISSION)
      :: submitEditChain parts MAX_PARTS_PER_SUBMISSION

/-- The loop of `submit_video_update_in_batches` (lines 4627-4649): issue an
edit call with parts `1..=min(end_index, N)`; stop once the end reached `N`,
otherwise advance by 100. -/
def submitUpdateChain (parts : List α) (end_index : Nat) : List (SubmitCall α) :=
  let next_end := min end_index parts.length
  if _h : next_end < parts.length then
    SubmitCall.edit (parts.take next_end)
      :: submitUpdateChain parts (next_end + MAX_PARTS_PER_SUBMISSION)
  else [SubmitCall.edit (parts.take next_end)]
termination_by parts.length - end_index
decreasing_by
  simp only [MAX_PARTS_PER_SUBMISSION] at *
  omega

/-- Call sequence issued by `submit_video_update_in_batches`
(lines 4601-4651). -/
def submit_video_update_in_batches (parts : List α) : List (SubmitCall α) :=
  if parts.length ≤ MAX_PARTS_PER_SUBMISSION then
    [SubmitCall.edit parts]
  else submitUpdateChain parts MAX_PARTS_PER_SUBMISSION

/-- Number of edit batches after the create call of a new batched
submission, per the claim: batches `k = 2, 3, ...` each covering
`min(k*100, N)` parts until the end reaches `N`. -/
def newEditBatchCount (n : Nat) : Nat := (n - 100 + 99) / 100

/-- Transcription of the claimed call sequence for a new submission: one
create call with the first `min(N,100)` parts, then edit calls whose part
lists are the initial segments of length `min(k*100, N)` for `k = 2, 3, ...`
until the length reaches `N`. -/
def newSubmissionCalls_spec (parts : List α) : List (SubmitCall α) :=
  SubmitCall.create (parts.take 100) ::
    (List.range (newEditBatchCount parts.length)).map
      (fun k => SubmitCall.edit (parts.take (min ((k + 2) * 100) parts.length)))

/-- Number of edit batches of an update submission, per the claim:
batches `k = 1, 2, ...` each covering `min(k*100, N)` parts. -/
def updateBatchCount (n : Nat) : Nat := max 1 ((n + 99) / 100)

/-- Transcription of the claimed call sequence for an update submission:
edit calls whose part lists are the initial segments of length
`min(k*100, N)` for `k = 1, 2, ...` until the length reaches `N`. -/
def updateSubmissionCalls_spec (parts : List α) : List (SubmitCall α) :=
  (List.range (updateBatchCount parts.length)).map
    (fun k => SubmitCall.edit (parts.take (min ((k + 1) * 100) parts.length)))

/-- The part list carried by a submit call. -/
def SubmitCall.parts : SubmitCall α → List α
  | .create p => p
  | .edit p => p

/-- Lengths of the part lists carried by the edit calls of a sequence. -/
def editPartLens (calls : List (SubmitCall α)) : List Nat :=
  calls.filterMap fun c =>
    match c with
    | .edit p => some p.length
    | .create _ => none

/-! ### Batched submission with outcomes (submission.rs, run_submission_upload
lines 3333-3383, submit_video_in_batches, update_submission_bvid_and_aid) -/

/-- Result of a successful create call, `SubmissionSubmitResult` from
submission.rs: the bvid and aid returned by `/x/vu/web/add/v3`. -/
structure SubmissionSubmitResult where
  bvid : String
  aid : Int
deriving DecidableEq, Repr

/-- Run `count` consecutive edit calls starting at batch `i`, given an oracle
for the outcome of each remote edit call; stop at the first error, as the `?`
operator does in the while-loop of `submit_video_in_batches`. -/
def runEditsFrom (editOutcome : Nat → Except String Unit) : Nat → Nat → Except String Unit
  | _, 0 => .ok ()
  | i, c + 1 =>
    match editOutcome i with
    | .error e => .error e
    | .ok () => runEditsFrom editOutcome (i + 1) c

/-- Outcome of `submit_video_in_batches` (lines 4549-4599) given oracles for
the create call and for each edit batch: for N ≤ 100 the create outcome is
returned directly; otherwise the create result is returned only if every edit
batch succeeds, and the first error aborts the chain. -/
def run_submit_video_in_batches (parts : List α)
    (createOutcome : Except String SubmissionSubmitResult)
    (editOutcome : Nat → Except String Unit) : Except String SubmissionSubmitResult :=
  if parts.length ≤ MAX_PARTS_PER_SUBMISSION then createOutcome
  else
    match createOutcome with
    | .error e => .error e
    | .ok r =>
      match runEditsFrom editOutcome 0 (newEditBatchCount parts.length) with
      | .error e => .error e
      | .ok () => .ok r

/-- The columns of the `submission_task` row touched by the submit phase of
`run_submission_upload`: status, bvid, aid. -/
structure SubmissionTaskRow where
  status : String
  bvid : Option String
  aid : Option Int
deriving DecidableEq, Repr

/-- The non-update submit phase of `run_submission_upload`
(lines 3333-3383): on success of the whole batch chain the row gets the
returned bvid/aid via `update_submission_bvid_and_aid`, then the optional
add-to-collection call decides COMPLETED versus FAILED; on an error from the
batch chain only the status is written (FAILED). -/
def run_submission_upload_new_finalize (row : SubmissionTaskRow)
    (collection_id : Option Int) (collectionOutcome : Except String Unit)
    (submitResult : Except String SubmissionSubmitResult) : SubmissionTaskRow :=
  match submitResult with
  | .ok r =>
    let row2 : SubmissionTaskRow := { row with bvid := some r.bvid, aid := some r.aid }
    match collection_id with
    | some cid =>
      if 0 < cid then
        match collectionOutcome with
        | .error _ => { row2 with status := "FAILED" }
        | .ok () => { row2 with status := "COMPLETED" }
      else { row2 with status := "COMPLETED" }
    | none => { row2 with status := "COMPLETED" }
  | .error _ => { row with status := "FAILED" }

/-! ### Chunked upload client (submission.rs, upload_video_chunks,
sanitize_upload_session, upload_single_file) -/

/-- Rust `str::trim`: drop leading and trailing whitespace.  Strings are
modelled as `List Char` so that everything evaluates in the kernel. -/
def strTrim (s : List Char) : List Char :=
  ((s.dropWhile Char.isWhitespace).reverse.dropWhile Char.isWhitespace).reverse

/-- `UploadSessionInfo` from submission.rs: the persisted resumable-upload
checkpoint.  `upload_id` holds the session id. -/
structure UploadSessionInfo where
  upload_id : List Char
  biz_id : Int
  chunk_size : Nat
  endpoint : List Char
  auth : List Char
  upos_uri : List Char
  uploaded_bytes : Nat
  total_bytes : Nat
  last_part_index : Nat
deriving DecidableEq, Repr

/-- Query parameters of one chunk PUT issued by `upload_video_chunks`
(lines 4343-4352).  `end_` stands for the query parameter named `end`. -/
structure PutParams where
  partNumber : Nat
  chunk : Nat
  chunks : Nat
  size : Nat
  start : Nat
  end_ : Nat
  total : Nat
deriving DecidableEq, Repr

/-- The while-loop of `upload_video_chunks` (lines 4330-4405): starting at
`index` with the file cursor at `offset`, emit one PUT per chunk until
`total_chunks` is reached or no bytes remain. -/
def chunkPuts (file_size chunk_size total_chunks : Nat) (index offset : Nat) :
    List PutParams :=
  if _h : index < total_chunks then
    let remaining := file_size - offset
    if remaining = 0 then []
    else
      let current_size := min chunk_size remaining
      { partNumber := index + 1, chunk := index, chunks := total_chunks,
        size := current_size, start := offset, end_ := offset + current_size,
        total := file_size }
        :: chunkPuts file_size chunk_size total_chunks (index + 1) (offset + current_size)
  else []
termination_by total_chunks - index

/-- Result of the pure control-flow part of `upload_video_chunks`: the chunk
count, the resume start index, the initial file cursor, and the PUT list. -/
structure ChunkPlan where
  totalChunks : Nat
  startIndex : Nat
  seekOffset : Nat
  puts : List PutParams
deriving DecidableEq, Repr

/-- `upload_video_chunks` (lines 4277-4408) without the network and
persistence effects: computes `total_chunks = ceil(file_size / chunk_size)`,
resumes at `last_part_index + 1` when the persisted session has matching
chunk size and positive uploaded bytes (clamped to `total_chunks`), seeks to
`start_index * chunk_size` (clamped to `file_size`), and runs the chunk
loop. -/
def upload_video_chunks_plan (file_size chunk_size : Nat)
    (resume_state : Option UploadSessionInfo) : ChunkPlan :=
  let total_chunks := (file_size + chunk_size - 1) / chunk_size
  let start0 : Nat :=
    match resume_state with
    | some s =>
      if 0 < s.uploaded_bytes ∧ s.chunk_size = chunk_size then s.last_part_index + 1 else 0
    | none => 0
  let start_index := if total_chunks < start0 then total_chunks else start0
  let offset0 := start_index * chunk_size
  let offset := if file_size < offset0 then file_size else offset0
  { totalChunks := total_chunks, startIndex := start_index, seekOffset := offset,
    puts := chunkPuts file_size chunk_size total_chunks start_index offset }

/-- `sanitize_upload_session` (lines 3842-3863): patch a zero `total_bytes`
to the current file size, then reject the session unless `total_bytes`
matches the file size, all string fields are non-empty after trimming,
`chunk_size > 0` and `biz_id > 0`. -/
def sanitize_upload_session (resume_session : Option UploadSessionInfo)
    (file_size : Nat) : Option UploadSessionInfo :=
  match resume_session with
  | none => none
  | some s0 =>
    let s := if s0.total_bytes = 0 then { s0 with total_bytes := file_size } else s0
    if s.total_bytes ≠ file_size then none
    else if (strTrim s.upload_id).isEmpty ∨ (strTrim s.endpoint).isEmpty
        ∨ (strTrim s.auth).isEmpty ∨ (strTrim s.upos_uri).isEmpty
        ∨ s.chunk_size = 0 ∨ s.biz_id ≤ 0 then none
    else some s

/-- First route taken by `upload_single_file` (lines 3959-4009): resume from
the sanitized session when it is accepted, otherwise restart from scratch
with a fresh pre-upload. -/
inductive UploadRoute where
  | resumed (s : UploadSessionInfo)
  | fresh
deriving DecidableEq, Repr

/-- The session decision of `upload_single_file`: which route the first
upload attempt takes. -/
def upload_single_file_first_route (resume_session : Option UploadSessionInfo)
    (file_size : Nat) : UploadRoute :=
  match sanitize_upload_session resume_session file_size with
  | some s => UploadRoute.resumed s
  | none => UploadRoute.fresh

/-- Transcription of the reusability condition exactly as the claim states
it: all four string fields non-empty, `chunk_size > 0`, `biz_id > 0`, and
`total_bytes` equal to the current file size. -/
def session_reusable_spec (s : UploadSessionInfo) (file_size : Nat) : Prop :=
  ¬(strTrim s.upload_id).isEmpty ∧ ¬(strTrim s.endpoint).isEmpty
    ∧ ¬(strTrim s.auth).isEmpty ∧ ¬(strTrim s.upos_uri).isEmpty
    ∧ 0 < s.chunk_size ∧ 0 < s.biz_id ∧ s.total_bytes = file_size

/-- The amended reusability condition: as claimed, except that a persisted
`total_bytes` of zero is also accepted (and patched to the file size). -/
def session_reusable_amended (s : UploadSessionInfo) (file_size : Nat) : Prop :=
  ¬(strTrim s.upload_id).isEmpty ∧ ¬(strTrim s.endpoint).isEmpty
    ∧ ¬(strTrim s.auth).isEmpty ∧ ¬(strTrim s.upos_uri).isEmpty
    ∧ 0 < s.chunk_size ∧ 0 < s.biz_id
    ∧ (s.total_bytes = file_size ∨ s.total_bytes = 0)

/-! ### Rate-limit backoff (submission.rs, UploadRateLimiter) -/

/-- RATE_LIMIT_BASE_WAIT_SECS from submission.rs line 2956. -/
def RATE_LIMIT_BASE_WAIT_SECS : Nat := 60

/-- RATE_LIMIT_MAX_WAIT_SECS from submission.rs line 2957. -/
def RATE_LIMIT_MAX_WAIT_SECS : Nat := 30 * 60

/-- `UploadRateLimiter` from submission.rs: the count of consecutive HTTP
406 responses, a u32. -/
structure UploadRateLimiter where
  consecutive_406 : Nat
deriving DecidableEq, Repr

/-- `UploadRateLimiter::reset`, called after every successful pre-upload,
meta post, chunk PUT and finalize. -/
def UploadRateLimiter.reset (_s : UploadRateLimiter) : UploadRateLimiter := ⟨0⟩

/-- `UploadRateLimiter::next_wait_seconds` (lines 2980-2991): saturating
u32 increment of the counter; a positive Retry-After value is capped at
RATE_LIMIT_MAX_WAIT_SECS; otherwise wait 60 << min(n-1, 10) seconds, capped
at RATE_LIMIT_MAX_WAIT_SECS.  Returns the updated limiter and the wait. -/
def UploadRateLimiter.next_wait_seconds (s : UploadRateLimiter)
    (retry_after : Option Nat) : UploadRateLimiter × Nat :=
  let n := min (s.consecutive_406 + 1) (2 ^ 32 - 1)
  let s2 : UploadRateLimiter := ⟨n⟩
  match retry_after with
  | some wait =>
    if 0 < wait then (s2, min wait RATE_LIMIT_MAX_WAIT_SECS)
    else
      (s2, min (RATE_LIMIT_BASE_WAIT_SECS * 2 ^ (min (n - 1) 10)) RATE_LIMIT_MAX_WAIT_SECS)
  | none =>
    (s2, min (RATE_LIMIT_BASE_WAIT_SECS * 2 ^ (min (n - 1) 10)) RATE_LIMIT_MAX_WAIT_SECS)

/-- The amended backoff formula: with n consecutive 406 responses, the wait
is min(Retry-After, 1800) when the header is present and positive, and
min(60 * 2^(n-1), 1800) otherwise (also when the header value is zero). -/
def rateLimitWait_spec (n : Nat) (retry_after : Option Nat) : Nat :=
  match retry_after with
  | some w =>
    if 0 < w then min w RATE_LIMIT_MAX_WAIT_SECS
    else min (RATE_LIMIT_BASE_WAIT_SECS * 2 ^ (n - 1)) RATE_LIMIT_MAX_WAIT_SECS
  | none => min (RATE_LIMIT_BASE_WAIT_SECS * 2 ^ (n - 1)) RATE_LIMIT_MAX_WAIT_SECS

/-! ### Segment upload retry envelope (submission.rs,
upload_segment_with_retry, upload_retry_delay_secs, is_auth_error) -/

/-- UPLOAD_SEGMENT_RETRY_LIMIT from submission.rs line 2958. -/
def UPLOAD_SEGMENT_RETRY_LIMIT : Nat := 3

/-- UPLOAD_RETRY_BASE_DELAY_SECS from submission.rs line 2961. -/
def UPLOAD_RETRY_BASE_DELAY_SECS : Nat := 2

/-- UPLOAD_RETRY_MAX_DELAY_SECS from submission.rs line 2962. -/
def UPLOAD_RETRY_MAX_DELAY_SECS : Nat := 30

/-- `upload_retry_delay_secs` (lines 2994-2999): 2 << min(attempt-1, 5),
capped at 30 seconds. -/
def upload_retry_delay_secs (attempt : Nat) : Nat :=
  min (UPLOAD_RETRY_BASE_DELAY_SECS * 2 ^ (min (attempt - 1) 5)) UPLOAD_RETRY_MAX_DELAY_SECS

/-- Rust `str::contains` for the substring checks of `is_auth_error`. -/
def strContains (hay needle : List Char) : Bool :=
  match hay with
  | [] => needle.isEmpty
  | c :: rest => needle.isPrefixOf (c :: rest) || strContains rest needle

/-- `is_auth_error` (lines 6110-6116): the error message contains one of the
auth-failure codes or the Chinese not-logged-in / please-log-in text. -/
def is_auth_error (err : List Char) : Bool :=
  strContains err "code: -101".data || strContains err "code: -111".data
    || strContains err "code: 86095".data || strContains err "账号未登录".data
    || strContains err "请先登录".data

/-- `UploadFileResult` from submission.rs: cid and remote filename of a
finished upload. -/
structure UploadFileResult where
  cid : Int
  filename : String
deriving DecidableEq, Repr

/-- Result of the retry loop: success, a surfaced error, or still pending
because the supplied outcome oracle ran out (model artifact). -/
inductive RetryResult where
  | success (r : UploadFileResult)
  | failure (e : List Char)
  | pending
deriving DecidableEq, Repr

/-- Observable trace of `upload_segment_with_retry`: final result, sleeps
performed between attempts, and the number of upload attempts issued. -/
structure RetryTrace where
  result : RetryResult
  sleeps : List Nat
  uploadAttempts : Nat
deriving DecidableEq, Repr

/-- `upload_segment_with_retry` (lines 4011-4070) over an oracle of upload
attempt outcomes and an oracle of credential-refresh outcomes: the attempt
counter is saturating-incremented at the top of every loop iteration; a
successful attempt returns; an attempt failing with an auth error triggers
a refresh and retries immediately (no limit check, no sleep), a failed
refresh surfaces its error; any other failure returns it once
`attempt >= max_retries`, and otherwise sleeps `upload_retry_delay_secs
attempt` and retries. -/
def upload_segment_with_retry_model (max_retries : Nat) :
    Nat → List (Except (List Char) UploadFileResult) → List (Except (List Char) Unit) →
      RetryTrace
  | _, [], _ => ⟨.pending, [], 0⟩
  | attempt, o :: rest, refreshes =>
    let a := min (attempt + 1) (2 ^ 32 - 1)
    match o with
    | .ok r => ⟨.success r, [], 1⟩
    | .error e =>
      if is_auth_error e then
        match refreshes with
        | [] => ⟨.pending, [], 1⟩
        | .ok () :: rrest =>
          let t := upload_segment_with_retry_model max_retries a rest rrest
          ⟨t.result, t.sleeps, t.uploadAttempts + 1⟩
        | .error re :: _ => ⟨.failure re, [], 1⟩
      else
        if max_retries ≤ a then ⟨.failure e, [], 1⟩
        else
          let t := upload_segment_with_retry_model max_retries a rest refreshes
          ⟨t.result, upload_retry_delay_secs a :: t.sleeps, t.uploadAttempts + 1⟩

/-- `upload_segment_with_retry` as called by the upload queue, with
`max_retries = UPLOAD_SEGMENT_RETRY_LIMIT` and the counter starting at 0. -/
def upload_segment_with_retry_run (outcomes : List (Except (List Char) UploadFileResult))
    (refreshes : List (Except (List Char) Unit)) : RetryTrace :=
  upload_segment_with_retry_model UPLOAD_SEGMENT_RETRY_LIMIT 0 outcomes refreshes

/-! ### Recorder: FLV tags, header cache and segment rotation
(live_recorder.rs) -/

/-- `FlvTag` from live_recorder.rs: tag type byte, the raw frame bytes
(11-byte header + payload + 4-byte trailing size), and the payload
position. -/
structure FlvTag where
  tag_type : Nat
  bytes : List Nat
  data_offset : Nat
  data_len : Nat
deriving DecidableEq, Repr

/-- `FlvTag::data`: the payload slice `bytes[data_offset..data_offset+data_len]`. -/
def FlvTag.data (t : FlvTag) : List Nat :=
  (t.bytes.drop t.data_offset).take t.data_len

/-- `is_video_keyframe` (lines 1261-1271): tag type 9 whose first payload
byte has high nibble 1. -/
def is_video_keyframe (tag : FlvTag) : Bool :=
  if tag.tag_type ≠ 9 then false
  else
    match tag.data with
    | [] => false
    | b :: _ => b / 16 = 1

/-- `is_audio_header` (lines 1437-1447): for sound format 10 the payload
second byte is 0, otherwise the first audio tag seen counts as the config. -/
def is_audio_header (data : List Nat) (has_header : Bool) : Bool :=
  match data with
  | b0 :: b1 :: _ => if b0 / 16 = 10 then b1 = 0 else !has_header
  | _ => false

/-- `is_video_header` (lines 1449-1460): codec id 7 or 12 with packet type
0, otherwise the first video tag seen counts as the config. -/
def is_video_header (data : List Nat) (has_header : Bool) : Bool :=
  match data with
  | b0 :: b1 :: _ =>
    if b0 % 16 = 7 ∨ b0 % 16 = 12 then b1 = 0 else !has_header
  | _ => false

/-- `normalize_header_tag` (lines 1426-1435): when the tag has at least 11
bytes, zero its four timestamp bytes at positions 4-7; shorter byte strings
are returned unchanged. -/
def normalize_header_tag (tag : List Nat) : List Nat :=
  if 11 ≤ tag.length then tag.take 4 ++ [0, 0, 0, 0] ++ tag.drop 8 else tag

/-- Positions 4-7 of the byte string are present and zero. -/
def timestampZeroed (b : List Nat) : Prop :=
  b[4]? = some 0 ∧ b[5]? = some 0 ∧ b[6]? = some 0 ∧ b[7]? = some 0

/-- `FlvHeaderCache` (lines 1343-1406): the stream header and the most
recent script, audio-config and video-config tags. -/
structure FlvHeaderCache where
  header : Option (List Nat)
  script_tag : Option (List Nat)
  audio_header : Option (List Nat)
  video_header : Option (List Nat)
deriving DecidableEq, Repr

/-- `FlvHeaderCache::new`. -/
def FlvHeaderCache.new : FlvHeaderCache := ⟨none, none, none, none⟩

/-- `FlvHeaderCache::set_header`. -/
def FlvHeaderCache.set_header (c : FlvHeaderCache) (h : List Nat) : FlvHeaderCache :=
  { c with header := some h }

/-- `FlvHeaderCache::has_header`. -/
def FlvHeaderCache.has_header (c : FlvHeaderCache) : Bool :=
  c.header.isSome

/-- `FlvHeaderCache::update_from_tag` (lines 1368-1387): remember the first
script tag and the latest audio/video codec-config tags, normalized. -/
def FlvHeaderCache.update_from_tag (c : FlvHeaderCache) (tag : FlvTag) : FlvHeaderCache :=
  if tag.tag_type = 18 then
    if c.script_tag.isNone then
      { c with script_tag := some (normalize_header_tag tag.bytes) }
    else c
  else if tag.tag_type = 8 then
    if is_audio_header tag.data c.audio_header.isSome then
      { c with audio_header := some (normalize_header_tag tag.bytes) }
    else c
  else if tag.tag_type = 9 then
    if is_video_header tag.data c.video_header.isSome then
      { c with video_header := some (normalize_header_tag tag.bytes) }
    else c
  else c

/-- `FlvHeaderCache::write_preamble` (lines 1389-1405): fail when no header
is cached, otherwise write the header, then the cached script tag, then the
video config, then the audio config.  The result lists the writes. -/
def FlvHeaderCache.write_preamble (c : FlvHeaderCache) : Except String (List (List Nat)) :=
  match c.header with
  | none => .error "缺少FLV头信息"
  | some h =>
    .ok ([h] ++ c.script_tag.toList ++ c.video_header.toList ++ c.audio_header.toList)

/-- Every cached script/audio-config/video-config entry has its four
timestamp bytes zeroed. -/
def cacheNormalized (c : FlvHeaderCache) : Prop :=
  (∀ b, c.script_tag = some b → timestampZeroed b)
  ∧ (∀ b, c.video_header = some b → timestampZeroed b)
  ∧ (∀ b, c.audio_header = some b → timestampZeroed b)

/-- The recorder-loop state relevant to segment rotation (run_record_loop,
lines 1053-1134): the header cache, the open segment modelled as its list of
writes, the pending-split flag, and the segment counter. -/
structure RecorderState where
  cache : FlvHeaderCache
  segment : Option (List (List Nat))
  pending_split : Bool
  segment_index : Nat
deriving DecidableEq, Repr

/-- One `FlvParsedItem::Tag` iteration of run_record_loop restricted to the
rotation logic (lines 1053-1137): update the cache, merge the split signals
into the pending flag, and rotate — close the segment, open a new one, write
the preamble — only when a split is pending, the current tag is a video
keyframe and the cache holds a header; the current tag is then appended to
the open segment.  Returns the new state and whether a rotation happened. -/
def process_tag_step (st : RecorderState) (tag : FlvTag) (split_signal : Bool) :
    Except String (RecorderState × Bool) :=
  let cache := st.cache.update_from_tag tag
  let pending := st.pending_split || split_signal
  if pending && is_video_keyframe tag then
    if cache.has_header then
      match cache.write_preamble with
      | .error e => .error e
      | .ok preamble =>
        .ok ({ cache := cache, segment := some (preamble ++ [tag.bytes]),
               pending_split := false, segment_index := st.segment_index + 1 }, true)
    else
      .ok ({ cache := cache,
             segment := st.segment.map (fun ws => ws ++ [tag.bytes]),
             pending_split := pending, segment_index := st.segment_index }, false)
  else
    .ok ({ cache := cache,
           segment := st.segment.map (fun ws => ws ++ [tag.bytes]),
           pending_split := pending, segment_index := st.segment_index }, false)

/-! ### Source readiness probe (submission.rs, check_sources_ready,
lines 2451-2533) -/

/-- Result of normalizing one source in `check_sources_ready`: the effective
start and end (`stop` models the variable named `end`), the end value
persisted to the source row by the clamp branch, and the reset flag. -/
structure NormalizedClip where
  start : ℚ
  stop : ℚ
  persisted_end : Option ℚ
  reset : Bool
deriving DecidableEq, Repr

/-- The per-source normalization of `check_sources_ready` (lines 2455-2532),
over exact rationals (the code compares f64 values; only comparisons and
assignments occur, no rounding arithmetic): default start to 0 and end to the
probed duration; a nonpositive end is replaced by the duration (reset); a
configured end above the duration is clamped to the duration and the clamp is
persisted; when start < 0 or start >= end, start becomes 0 and end is set to
the duration only when no end was configured (reset). -/
def check_source_normalize (start_opt end_opt : Option ℚ) (duration : ℚ) :
    NormalizedClip :=
  let start0 := start_opt.getD 0
  let e0 := end_opt.getD duration
  let p1 : ℚ × Bool := if e0 ≤ 0 then (duration, true) else (e0, false)
  let p2 : ℚ × Option ℚ :=
    match end_opt with
    | some config_end =>
      if duration < config_end then (duration, some duration) else (p1.1, none)
    | none => (duration, none)
  let p3 : ℚ × ℚ × Bool :=
    if start0 < 0 ∨ p2.1 ≤ start0 then
      (0, (if end_opt.isNone then duration else p2.1), true)
    else (start0, p2.1, p1.2)
  { start := p3.1, stop := p3.2.1, persisted_end := p2.2, reset := p3.2.2 }

/-! ### Danmaku packet framing (live_recorder.rs, build_danmaku_packet,
parse_danmaku_packets) -/

/-- Big-endian bytes of a u16. -/
def u16be (n : Nat) : List Nat := [n / 2 ^ 8 % 256, n % 256]

/-- Big-endian bytes of a u32. -/
def u32be (n : Nat) : List Nat :=
  [n / 2 ^ 24 % 256, n / 2 ^ 16 % 256, n / 2 ^ 8 % 256, n % 256]

/-- `u16::from_be_bytes` on the first two bytes. -/
def readU16be : List Nat → Nat
  | a :: b :: _ => a * 2 ^ 8 + b
  | _ => 0

/-- `u32::from_be_bytes` on the first four bytes. -/
def readU32be : List Nat → Nat
  | a :: b :: c :: d :: _ => a * 2 ^ 24 + b * 2 ^ 16 + c * 2 ^ 8 + d
  | _ => 0

/-- `DanmakuPacket` from live_recorder.rs. -/
structure DanmakuPacket where
  op : Nat
  version : Nat
  body : List Nat
deriving DecidableEq, Repr

/-- `build_danmaku_packet` (lines 2680-2691): 16-byte header — packet_len
(u32, wrapping at 2^32: `body.len() as u32 + 16`), header_len 16, protocol
version 1, op, sequence 1 — followed by the body. -/
def build_danmaku_packet (op : Nat) (body : List Nat) : List Nat :=
  u32be ((16 + body.length) % 2 ^ 32) ++ u16be 16 ++ u16be 1 ++ u32be (op % 2 ^ 32)
    ++ u32be 1 ++ body

/-- The loop of `parse_danmaku_packets` (lines 2604-2632) over the remaining
byte list, with fuel standing in for the nonterminating Rust loop on
zero-length packets: while at least 16 bytes remain, read packet_len,
header_len, version and op; stop when the packet or header end passes the
end of the data; Rust panics slicing `data[body_start..body_end]` when
packet_len < header_len (error here); protocol versions 2 and 3 call the
external zlib/Brotli crates (not in this repository; both branches are
errors here — reaching them means the branch was taken); otherwise record
the packet and continue past packet_len bytes. -/
def parse_danmaku_packets_go : Nat → List Nat → Except String (List DanmakuPacket)
  | 0, _ => .error "nontermination"
  | fuel + 1, data =>
    if data.length < 16 then .ok []
    else
      let packet_len := readU32be data
      let header_len := readU16be (data.drop 4)
      let version := readU16be (data.drop 6)
      let op := readU32be (data.drop 8)
      if data.length < packet_len ∨ data.length < header_len then .ok []
      else if packet_len < header_len then .error "slice panic"
      else
        let body := (data.drop header_len).take (packet_len - header_len)
        if version = 2 then .error "zlib branch"
        else if version = 3 then .error "brotli branch"
        else
          match parse_danmaku_packets_go fuel (data.drop packet_len) with
          | .error e => .error e
          | .ok rest => .ok (⟨op, version, body⟩ :: rest)

/-- `parse_danmaku_packets` with enough fuel for every advancing parse. -/
def parse_danmaku_packets (data : List Nat) : Except String (List DanmakuPacket) :=
  parse_danmaku_packets_go (data.length + 1) data

end ReactionCut

namespace ReactionCut

theorem submitEditChain_eq (parts : List α) (e : Nat) :
    submitEditChain parts e =
      (List.range ((parts.length - e + 99) / 100)).map
        (fun k => SubmitCall.edit (parts.take (min (e + (k + 1) * 100) parts.length))) := by
  rw [submitEditChain]
  by_cases h : e < parts.length
  · rw [dif_pos h]
    have ih := submitEditChain_eq parts (min (e + MAX_PARTS_PER_SUBMISSION) parts.length)
    simp only [MAX_PARTS_PER_SUBMISSION] at *
    by_cases h2 : e + 100 < parts.length
    · have hmin : min (e + 100) parts.length = e + 100 := by omega
      rw [hmin] at ih ⊢
      have hcount : (parts.length - e + 99) / 100 = (parts.length - (e + 100) + 99) / 100 + 1 := by
        have h3 : parts.length - e + 99 = (parts.length - (e + 100) + 99) + 100 := by omega
        rw [h3, Nat.add_div_right _ (by norm_num)]
      rw [hcount, List.range_succ_eq_map]
      simp only [List.map_cons, List.map_map]
      rw [ih]
      congr 1
      · have h5 : e + (0 + 1) * 100 = e + 100 := by ring
        rw [h5, hmin]
      · apply List.map_congr_left
        intro k _
        simp only [Function.comp_apply, Nat.succ_eq_add_one]
        have h6 : e + 100 + (k + 1) * 100 = e + (k + 1 + 1) * 100 := by ring
        rw [h6]
    · have hmin : min (e + 100) parts.length = parts.length := by omega
      rw [hmin] at ih ⊢
      have hcount : (parts.length - e + 99) / 100 = 1 := by omega
      rw [hcount]
      have ih2 : submitEditChain parts parts.length = [] := by
        rw [ih]
        simp
      rw [ih2]
      have h4 : min (e + (0 + 1) * 100) parts.length = parts.length := by omega
      simp [List.range_succ, h4, List.take_length]
  · rw [dif_neg h]
    have : parts.length - e = 0 := by omega
    rw [this]
    norm_num
termination_by parts.length - e
decreasing_by
  simp only [MAX_PARTS_PER_SUBMISSION]
  omega

theorem submitUpdateChain_eq (parts : List α) (e : Nat) :
    submitUpdateChain parts e =
      ((List.range ((parts.length - e + 99) / 100)).map
          (fun k => SubmitCall.edit (parts.take (min (e + k * 100) parts.length))))
        ++ [SubmitCall.edit
              (parts.take (min (e + ((parts.length - e + 99) / 100) * 100) parts.length))] := by
  rw [submitUpdateChain]
  by_cases h : e < parts.length
  · have hne : min e parts.length = e := by omega
    rw [hne, dif_pos h]
    have ih := submitUpdateChain_eq parts (e + MAX_PARTS_PER_SUBMISSION)
    simp only [MAX_PARTS_PER_SUBMISSION] at *
    by_cases h2 : e + 100 < parts.length
    · have hcount : (parts.length - e + 99) / 100 = (parts.length - (e + 100) + 99) / 100 + 1 := by
        have h3 : parts.length - e + 99 = (parts.length - (e + 100) + 99) + 100 := by omega
        rw [h3, Nat.add_div_right _ (by norm_num)]
      rw [hcount, List.range_succ_eq_map]
      simp only [List.map_cons, List.map_map, List.cons_append]
      rw [ih]
      congr 1
      · have h5 : min (e + 0 * 100) parts.length = e := by omega
        rw [h5]
      congr 1
      · apply List.map_congr_left
        intro k _
        simp only [Function.comp_apply, Nat.succ_eq_add_one]
        have h6 : e + 100 + k * 100 = e + (k + 1) * 100 := by ring
        rw [h6]
      · have h7 : e + 100 + (parts.length - (e + 100) + 99) / 100 * 100
            = e + ((parts.length - (e + 100) + 99) / 100 + 1) * 100 := by ring
        rw [h7]
    · have hcount : (parts.length - e + 99) / 100 = 1 := by omega
      rw [hcount]
      have ih2 : submitUpdateChain parts (e + 100) =
          [SubmitCall.edit (parts.take (min (e + 100) parts.length))] := by
        rw [ih]
        have h8 : parts.length - (e + 100) + 99 = 99 := by omega
        rw [h8]
        norm_num
      rw [ih2]
      have h10 : min (e + 0 * 100) parts.length = e := by omega
      have h11 : min (e + 1 * 100) parts.length = min (e + 100) parts.length := by omega
      simp [List.range_succ, h10, h11]
  · have hne : min e parts.length = parts.length := by omega
    rw [hne, dif_neg (by omega)]
    have hcount : (parts.length - e + 99) / 100 = 0 := by omega
    rw [hcount]
    have h12 : min (e + 0 * 100) parts.length = parts.length := by omega
    simp only [List.range_zero, List.map_nil, List.nil_append, h12]
termination_by parts.length - e
decreasing_by
  simp only [MAX_PARTS_PER_SUBMISSION]
  omega

theorem submit_video_in_batches_eq_spec (parts : List α) :
    submit_video_in_batches parts = newSubmissionCalls_spec parts := by
  rw [submit_video_in_batches, newSubmissionCalls_spec]
  simp only [MAX_PARTS_PER_SUBMISSION, newEditBatchCount]
  by_cases h : parts.length ≤ 100
  · rw [if_pos h]
    have hc : (parts.length - 100 + 99) / 100 = 0 := by omega
    rw [hc, List.range_zero, List.map_nil, List.take_of_length_le h]
  · rw [if_neg h, submitEditChain_eq]
    congr 1
    apply List.map_congr_left
    intro k _
    have h1 : 100 + (k + 1) * 100 = (k + 2) * 100 := by ring
    rw [h1]

theorem submit_video_update_in_batches_eq_spec (parts : List α) :
    submit_video_update_in_batches parts = updateSubmissionCalls_spec parts := by
  rw [submit_video_update_in_batches, updateSubmissionCalls_spec]
  simp only [MAX_PARTS_PER_SUBMISSION, updateBatchCount]
  by_cases h : parts.length ≤ 100
  · rw [if_pos h]
    have hc : max 1 ((parts.length + 99) / 100) = 1 := by omega
    rw [hc]
    have h1 : min ((0 + 1) * 100) parts.length = parts.length := by omega
    simp [List.range_succ, h1, List.take_length]
  · rw [if_neg h, submitUpdateChain_eq]
    have hc : max 1 ((parts.length + 99) / 100) = (parts.length - 100 + 99) / 100 + 1 := by
      omega
    rw [hc, List.range_succ]
    simp only [List.map_append, List.map_cons, List.map_nil]
    congr 1
    · apply List.map_congr_left
      intro k _
      have h1 : (k + 1) * 100 = 100 + k * 100 := by ring
      rw [h1]
    · have h2 : ((parts.length - 100 + 99) / 100 + 1) * 100
          = 100 + (parts.length - 100 + 99) / 100 * 100 := by ring
      rw [h2]

theorem filterMap_eq_map_of_forall (g : α → Option β) (f : α → β) (l : List α)
    (H : ∀ a ∈ l, g a = some (f a)) : l.filterMap g = l.map f := by
  induction l with
  | nil => rfl
  | cons a l ih =>
    rw [List.filterMap_cons, H a (by simp), List.map_cons,
      ih (fun b hb => H b (by simp [hb]))]

theorem editPartLens_new_eq (parts : List α) :
    editPartLens (submit_video_in_batches parts)
      = (List.range (newEditBatchCount parts.length)).map
          (fun k => min ((k + 2) * 100) parts.length) := by
  rw [submit_video_in_batches_eq_spec]
  simp only [newSubmissionCalls_spec, editPartLens, List.filterMap_cons, List.filterMap_map]
  rw [filterMap_eq_map_of_forall _ (fun k => min ((k + 2) * 100) parts.length)]
  intro k _
  simp [List.length_take, min_assoc]

theorem editPartLens_update_eq (parts : List α) :
    editPartLens (submit_video_update_in_batches parts)
      = (List.range (updateBatchCount parts.length)).map
          (fun k => min ((k + 1) * 100) parts.length) := by
  rw [submit_video_update_in_batches_eq_spec]
  simp only [updateSubmissionCalls_spec, editPartLens, List.filterMap_map]
  rw [filterMap_eq_map_of_forall _ (fun k => min ((k + 1) * 100) parts.length)]
  intro k _
  simp [List.length_take, min_assoc]

theorem editPartLens_new_pairwise (parts : List α) :
    List.Pairwise (· < ·) (editPartLens (submit_video_in_batches parts)) := by
  rw [editPartLens_new_eq, List.pairwise_map, List.pairwise_iff_getElem]
  intro i j hi hj hij
  simp only [List.length_range] at hi hj
  simp only [List.getElem_range]
  simp only [newEditBatchCount] at hi hj
  omega

theorem editPartLens_update_pairwise (parts : List α) :
    List.Pairwise (· < ·) (editPartLens (submit_video_update_in_batches parts)) := by
  rw [editPartLens_update_eq, List.pairwise_map, List.pairwise_iff_getElem]
  intro i j hi hj hij
  simp only [List.length_range] at hi hj
  simp only [List.getElem_range]
  simp only [updateBatchCount] at hi hj
  omega

theorem submit_video_in_batches_last (parts : List α) :
    ((submit_video_in_batches parts).getLast?).map SubmitCall.parts = some parts := by
  rw [submit_video_in_batches_eq_spec]
  simp only [newSubmissionCalls_spec]
  by_cases h : parts.length ≤ 100
  · have hc : newEditBatchCount parts.length = 0 := by
      simp only [newEditBatchCount]
      omega
    rw [hc, List.range_zero, List.map_nil]
    simp [SubmitCall.parts, List.take_of_length_le h]
  · have hc : ∃ c, newEditBatchCount parts.length = c + 1 := by
      simp only [newEditBatchCount]
      refine ⟨(parts.length - 100 + 99) / 100 - 1, by omega⟩
    obtain ⟨c, hc⟩ := hc
    rw [hc, List.range_succ, List.map_append, List.map_cons, List.map_nil,
      ← List.cons_append, List.getLast?_concat]
    have h1 : min ((c + 2) * 100) parts.length = parts.length := by
      have h2 := hc
      simp only [newEditBatchCount] at h2
      omega
    simp [SubmitCall.parts, h1, List.take_length]

theorem submit_video_update_in_batches_last (parts : List α) :
    ((submit_video_update_in_batches parts).getLast?).map SubmitCall.parts = some parts := by
  rw [submit_video_update_in_batches_eq_spec]
  simp only [updateSubmissionCalls_spec]
  have hc : ∃ c, updateBatchCount parts.length = c + 1 := by
    simp only [updateBatchCount]
    refine ⟨max 1 ((parts.length + 99) / 100) - 1, by omega⟩
  obtain ⟨c, hc⟩ := hc
  rw [hc, List.range_succ, List.map_append, List.map_cons, List.map_nil,
    List.getLast?_concat]
  have h1 : min ((c + 1) * 100) parts.length = parts.length := by
    have h2 := hc
    simp only [updateBatchCount] at h2
    omega
  simp [SubmitCall.parts, h1, List.take_length]

/-- C1: for a new batched submission of N parts, if N ≤ 100 a single create
call carries all N parts; otherwise the create call carries parts 1..=100
and every following edit call carries a strictly increasing initial segment
of length min(k*100, N) for k = 2, 3, ... until it reaches N; an update
submission uses the same edit chain, starting at 1..=min(N,100) and
expanding by 100 per batch until 1..=N.  Stated as: the call sequences of
`submit_video_in_batches` and `submit_video_update_in_batches` equal their
spec transcriptions, the edit-call part counts are strictly increasing, and
the final call carries the whole part list. -/
theorem claim_C1 (parts : List α) :
    submit_video_in_batches parts = newSubmissionCalls_spec parts
    ∧ submit_video_update_in_batches parts = updateSubmissionCalls_spec parts
    ∧ List.Pairwise (· < ·) (editPartLens (submit_video_in_batches parts))
    ∧ List.Pairwise (· < ·) (editPartLens (submit_video_update_in_batches parts))
    ∧ ((submit_video_in_batches parts).getLast?).map SubmitCall.parts = some parts
    ∧ ((submit_video_update_in_batches parts).getLast?).map SubmitCall.parts = some parts :=
  ⟨submit_video_in_batches_eq_spec parts, submit_video_update_in_batches_eq_spec parts,
    editPartLens_new_pairwise parts, editPartLens_update_pairwise parts,
    submit_video_in_batches_last parts, submit_video_update_in_batches_last parts⟩

set_option maxRecDepth 8000 in
/-- C2 counterexample: a new batched submission of 205 parts whose create
call succeeds with bvid "BV1test" and aid 7, and whose first edit batch
fails.  The resulting task row has status FAILED, but the bvid and aid
returned by the create call are NOT on the row: `update_submission_bvid_and_aid`
runs only after the whole batch chain succeeds, so the row keeps its prior
(empty) values. -/
theorem claim_C2_counterexample :
    (run_submission_upload_new_finalize ⟨"UPLOADING", none, none⟩ none (.ok ())
        (run_submit_video_in_batches (List.replicate 205 0) (.ok ⟨"BV1test", 7⟩)
          (fun _ => .error "edit batch failed"))).status = "FAILED"
    ∧ (run_submission_upload_new_finalize ⟨"UPLOADING", none, none⟩ none (.ok ())
        (run_submit_video_in_batches (List.replicate 205 0) (.ok ⟨"BV1test", 7⟩)
          (fun _ => .error "edit batch failed"))).bvid ≠ some "BV1test"
    ∧ (run_submission_upload_new_finalize ⟨"UPLOADING", none, none⟩ none (.ok ())
        (run_submit_video_in_batches (List.replicate 205 0) (.ok ⟨"BV1test", 7⟩)
          (fun _ => .error "edit batch failed"))).aid ≠ some 7 := by
  refine ⟨?_, ?_, ?_⟩ <;> decide

/-- C2 amended: if, during a batched new submission, the create call
succeeds but a later edit batch fails, the status is set to FAILED and the
bvid/aid columns of the task row are left unchanged — the values returned
by the create call are not persisted, because
`update_submission_bvid_and_aid` only runs after every batch succeeded. -/
theorem claim_C2 (row : SubmissionTaskRow) (collection_id : Option Int)
    (cOut : Except String Unit) (parts : List Nat)
    (r : SubmissionSubmitResult) (editOutcome : Nat → Except String Unit) (e : String)
    (hN : MAX_PARTS_PER_SUBMISSION < parts.length)
    (hEdit : runEditsFrom editOutcome 0 (newEditBatchCount parts.length) = .error e) :
    run_submission_upload_new_finalize row collection_id cOut
        (run_submit_video_in_batches parts (.ok r) editOutcome)
      = { row with status := "FAILED" } := by
  have hcond : ¬ parts.length ≤ MAX_PARTS_PER_SUBMISSION := by omega
  unfold run_submit_video_in_batches
  rw [if_neg hcond, hEdit]
  rfl

/-- C2 witness: the amended statement applied to a concrete 101-part
submission whose only edit batch fails. -/
theorem claim_C2_witness :
    run_submission_upload_new_finalize ⟨"WAITING_UPLOAD", some "BVold", some 3⟩ (some 0) (.ok ())
        (run_submit_video_in_batches (List.replicate 101 0) (.ok ⟨"BVnew", 9⟩)
          (fun _ => .error "x"))
      = ⟨"FAILED", some "BVold", some 3⟩ :=
  claim_C2 ⟨"WAITING_UPLOAD", some "BVold", some 3⟩ (some 0) (.ok ())
    (List.replicate 101 0) ⟨"BVnew", 9⟩ (fun _ => .error "x") "x"
    (by decide) rfl

theorem chunkPuts_fields (fs cs total i o : Nat) :
    ∀ p ∈ chunkPuts fs cs total i o,
      p.partNumber = p.chunk + 1 ∧ p.chunks = total ∧ p.total = fs := by
  intro p hp
  rw [chunkPuts] at hp
  by_cases h : i < total
  · rw [dif_pos h] at hp
    by_cases h2 : fs - o = 0
    · rw [if_pos h2] at hp
      simp at hp
    · rw [if_neg h2] at hp
      rcases List.mem_cons.mp hp with h3 | h3
      · subst h3
        exact ⟨rfl, rfl, rfl⟩
      · exact chunkPuts_fields fs cs total (i + 1) (o + min cs (fs - o)) p h3
  · rw [dif_neg h] at hp
    simp at hp
termination_by total - i

theorem chunkPuts_map_chunk (fs cs total i : Nat) (hcs : 0 < cs)
    (hkey : total * cs ≤ fs + cs - 1) :
    (chunkPuts fs cs total i (i * cs)).map (fun p => p.chunk) = List.range' i (total - i) := by
  rw [chunkPuts]
  by_cases h : i < total
  · rw [dif_pos h]
    have h1 : (i + 1) * cs ≤ total * cs := Nat.mul_le_mul_right cs (by omega)
    have h2 : (i + 1) * cs = i * cs + cs := by ring
    have hrem : ¬ (fs - i * cs = 0) := by omega
    rw [if_neg hrem]
    dsimp only
    by_cases hnext : i + 1 < total
    · have h3 : (i + 2) * cs ≤ total * cs := Nat.mul_le_mul_right cs (by omega)
      have h4 : (i + 2) * cs = i * cs + cs + cs := by ring
      have hsz : min cs (fs - i * cs) = cs := by omega
      rw [hsz]
      have hoff : i * cs + cs = (i + 1) * cs := by ring
      rw [hoff, List.map_cons, chunkPuts_map_chunk fs cs total (i + 1) hcs hkey]
      have htc : total - i = (total - (i + 1)) + 1 := by omega
      rw [htc, List.range'_succ]
    · have hstop : chunkPuts fs cs total (i + 1) (i * cs + min cs (fs - i * cs)) = [] := by
        rw [chunkPuts, dif_neg (by omega)]
      rw [hstop, List.map_cons, List.map_nil]
      have htc : total - i = 1 := by omega
      rw [htc]
      rfl
  · rw [dif_neg h]
    have htc : total - i = 0 := by omega
    rw [htc]
    rfl
termination_by total - i

/-- C3: when resuming an upload from a persisted session with matching chunk
size, positive uploaded bytes and an in-range `last_part_index` (every
session persisted by the progress snapshots is in range), the chunk loop
starts at partIndex = last_part_index + 1, the file is positioned at
partIndex * chunk_size, the emitted chunk indices run consecutively up to
ceil(file_size / chunk_size) - 1, and every PUT carries
partNumber = chunk + 1 and chunks = ceil(file_size / chunk_size). -/
theorem claim_C3 (fs : Nat) (s : UploadSessionInfo)
    (hcs : 0 < s.chunk_size) (hup : 0 < s.uploaded_bytes)
    (hrange : s.last_part_index + 1 < (fs + s.chunk_size - 1) / s.chunk_size) :
    (upload_video_chunks_plan fs s.chunk_size (some s)).totalChunks
        = (fs + s.chunk_size - 1) / s.chunk_size
    ∧ (upload_video_chunks_plan fs s.chunk_size (some s)).startIndex
        = s.last_part_index + 1
    ∧ (upload_video_chunks_plan fs s.chunk_size (some s)).seekOffset
        = (s.last_part_index + 1) * s.chunk_size
    ∧ (upload_video_chunks_plan fs s.chunk_size (some s)).puts.map (fun p => p.chunk)
        = List.range' (s.last_part_index + 1)
            ((fs + s.chunk_size - 1) / s.chunk_size - (s.last_part_index + 1))
    ∧ ∀ p ∈ (upload_video_chunks_plan fs s.chunk_size (some s)).puts,
        p.partNumber = p.chunk + 1
          ∧ p.chunks = (fs + s.chunk_size - 1) / s.chunk_size ∧ p.total = fs := by
  have hkey : ((fs + s.chunk_size - 1) / s.chunk_size) * s.chunk_size
      ≤ fs + s.chunk_size - 1 := Nat.div_mul_le_self _ _
  have hoff : (s.last_part_index + 1) * s.chunk_size ≤ fs := by
    have h1 : (s.last_part_index + 1 + 1) * s.chunk_size
        ≤ ((fs + s.chunk_size - 1) / s.chunk_size) * s.chunk_size :=
      Nat.mul_le_mul_right _ (by omega)
    have h2 : (s.last_part_index + 1 + 1) * s.chunk_size
        = (s.last_part_index + 1) * s.chunk_size + s.chunk_size := by ring
    omega
  dsimp only [upload_video_chunks_plan]
  rw [if_pos (show 0 < s.uploaded_bytes ∧ s.chunk_size = s.chunk_size from ⟨hup, rfl⟩),
    if_neg (show ¬ (fs + s.chunk_size - 1) / s.chunk_size < s.last_part_index + 1 by omega),
    if_neg (show ¬ fs < (s.last_part_index + 1) * s.chunk_size by omega)]
  refine ⟨rfl, rfl, rfl, ?_, ?_⟩
  · exact chunkPuts_map_chunk fs s.chunk_size _ (s.last_part_index + 1) hcs hkey
  · exact chunkPuts_fields fs s.chunk_size _ (s.last_part_index + 1) _

/-- C3 witness: the spec scenario — chunk size 4 MiB, file size 17 MiB,
last_part_index 2, uploaded 12 MiB: resume starts at partIndex 3 of 5
chunks, seeking to 12 MiB. -/
theorem claim_C3_witness :
    (upload_video_chunks_plan 17825792 4194304
        (some ⟨['s'], 1, 4194304, ['e'], ['a'], ['u'], 12582912, 17825792, 2⟩)).startIndex = 3
    ∧ (upload_video_chunks_plan 17825792 4194304
        (some ⟨['s'], 1, 4194304, ['e'], ['a'], ['u'], 12582912, 17825792, 2⟩)).seekOffset
        = 12582912
    ∧ (upload_video_chunks_plan 17825792 4194304
        (some ⟨['s'], 1, 4194304, ['e'], ['a'], ['u'], 12582912, 17825792, 2⟩)).totalChunks
        = 5 := by
  have h := claim_C3 17825792 ⟨['s'], 1, 4194304, ['e'], ['a'], ['u'], 12582912, 17825792, 2⟩
    (by decide) (by decide) (by decide)
  exact ⟨h.2.1, h.2.2.1.trans (by decide), h.1.trans (by decide)⟩

/-- C4 counterexample: a session whose persisted `total_bytes` is zero and
whose other fields are valid is accepted by `sanitize_upload_session` for a
5-byte file, although `total_bytes` (0) differs from the file size (5), so
the claimed "accepted if and only if ... total_bytes equals the file size"
fails in the only-if direction. -/
theorem claim_C4_counterexample :
    (sanitize_upload_session (some ⟨['s'], 1, 4, ['e'], ['a'], ['u'], 0, 0, 0⟩) 5).isSome = true
    ∧ ¬ session_reusable_spec ⟨['s'], 1, 4, ['e'], ['a'], ['u'], 0, 0, 0⟩ 5 := by
  constructor
  · decide
  · intro h
    exact absurd h.2.2.2.2.2.2 (by decide)

/-- C4 amended: a persisted session is accepted for resumption iff
session id, endpoint, auth and uri are non-empty after trimming,
chunk_size > 0, biz_id > 0, and total_bytes equals the file size or is zero
(a zero total_bytes is patched to the file size); a missing session is never
accepted, and every rejected session makes the upload restart from scratch
with a fresh pre-upload. -/
theorem claim_C4 (s : UploadSessionInfo) (file_size : Nat) :
    ((sanitize_upload_session (some s) file_size).isSome
        ↔ session_reusable_amended s file_size)
    ∧ sanitize_upload_session none file_size = none
    ∧ (sanitize_upload_session (some s) file_size = none →
        upload_single_file_first_route (some s) file_size = UploadRoute.fresh) := by
  refine ⟨?_, rfl, ?_⟩
  · dsimp only [sanitize_upload_session, session_reusable_amended]
    by_cases htb : s.total_bytes = 0
    · simp only [if_pos htb]
      rw [if_neg (show ¬ (file_size ≠ file_size) from fun hh => hh rfl)]
      by_cases hbad : (strTrim s.upload_id).isEmpty ∨ (strTrim s.endpoint).isEmpty
          ∨ (strTrim s.auth).isEmpty ∨ (strTrim s.upos_uri).isEmpty
          ∨ s.chunk_size = 0 ∨ s.biz_id ≤ 0
      · rw [if_pos hbad]
        simp only [Option.isSome_none, Bool.false_eq_true, false_iff]
        intro hgood
        rcases hbad with hh | hh | hh | hh | hh | hh
        · exact hgood.1 hh
        · exact hgood.2.1 hh
        · exact hgood.2.2.1 hh
        · exact hgood.2.2.2.1 hh
        · have := hgood.2.2.2.2.1
          omega
        · have := hgood.2.2.2.2.2.1
          omega
      · rw [if_neg hbad]
        simp only [Option.isSome_some, true_iff]
        push_neg at hbad
        obtain ⟨hb1, hb2, hb3, hb4, hb5, hb6⟩ := hbad
        exact ⟨hb1, hb2, hb3, hb4, by omega, by omega, Or.inr htb⟩
    · simp only [if_neg htb]
      by_cases hne : s.total_bytes ≠ file_size
      · rw [if_pos hne]
        simp only [Option.isSome_none, Bool.false_eq_true, false_iff]
        intro hgood
        rcases hgood.2.2.2.2.2.2 with hh | hh
        · exact hne hh
        · exact htb hh
      · rw [if_neg hne]
        push_neg at hne
        by_cases hbad : (strTrim s.upload_id).isEmpty ∨ (strTrim s.endpoint).isEmpty
            ∨ (strTrim s.auth).isEmpty ∨ (strTrim s.upos_uri).isEmpty
            ∨ s.chunk_size = 0 ∨ s.biz_id ≤ 0
        · rw [if_pos hbad]
          simp only [Option.isSome_none, Bool.false_eq_true, false_iff]
          intro hgood
          rcases hbad with hh | hh | hh | hh | hh | hh
          · exact hgood.1 hh
          · exact hgood.2.1 hh
          · exact hgood.2.2.1 hh
          · exact hgood.2.2.2.1 hh
          · have := hgood.2.2.2.2.1
            omega
          · have := hgood.2.2.2.2.2.1
            omega
        · rw [if_neg hbad]
          simp only [Option.isSome_some, true_iff]
          push_neg at hbad
          obtain ⟨hb1, hb2, hb3, hb4, hb5, hb6⟩ := hbad
          exact ⟨hb1, hb2, hb3, hb4, by omega, by omega, Or.inl hne⟩
  · intro hnone
    unfold upload_single_file_first_route
    rw [hnone]

/-- C4 witness: the amended statement applied to a rejected concrete session
(blank auth field) and to an accepted one. -/
theorem claim_C4_witness :
    ((sanitize_upload_session (some ⟨['s'], 1, 4, ['e'], [' '], ['u'], 0, 7, 0⟩) 7).isSome
        ↔ session_reusable_amended ⟨['s'], 1, 4, ['e'], [' '], ['u'], 0, 7, 0⟩ 7)
    ∧ upload_single_file_first_route
        (some ⟨['s'], 1, 4, ['e'], [' '], ['u'], 0, 7, 0⟩) 7 = UploadRoute.fresh := by
  have h := claim_C4 ⟨['s'], 1, 4, ['e'], [' '], ['u'], 0, 7, 0⟩ 7
  exact ⟨h.1, h.2.2 (by decide)⟩

theorem rate_wait_exponent_cap (n : Nat) :
    min (RATE_LIMIT_BASE_WAIT_SECS * 2 ^ (min n 10)) RATE_LIMIT_MAX_WAIT_SECS
      = min (RATE_LIMIT_BASE_WAIT_SECS * 2 ^ n) RATE_LIMIT_MAX_WAIT_SECS := by
  by_cases h : n ≤ 10
  · rw [min_eq_left h]
  · have h1 : min n 10 = 10 := by omega
    have h2 : (2 : Nat) ^ 10 ≤ 2 ^ n := Nat.pow_le_pow_right (by norm_num) (by omega)
    have h3 : (2 : Nat) ^ 10 = 1024 := by norm_num
    rw [h1]
    simp only [RATE_LIMIT_BASE_WAIT_SECS, RATE_LIMIT_MAX_WAIT_SECS]
    omega

/-- C5 counterexample: on a 406 with `Retry-After: 3600`, the wait is 1800
seconds, not the 3600 the header requested — the Retry-After value is capped
at RATE_LIMIT_MAX_WAIT_SECS, so the claimed "the wait equals the Retry-After
header value when present" fails. -/
theorem claim_C5_counterexample :
    ((⟨0⟩ : UploadRateLimiter).next_wait_seconds (some 3600)).2 = 1800
    ∧ ((⟨0⟩ : UploadRateLimiter).next_wait_seconds (some 3600)).2 ≠ 3600 := by
  refine ⟨rfl, ?_⟩
  decide

/-- C5 amended: on HTTP 406, with n the (saturating) count of consecutive
406 responses including this one, the wait is min(Retry-After, 1800) when
the header is present with a positive value, and min(60 * 2^(n-1), 1800)
otherwise — a zero Retry-After falls through to the exponential schedule;
the counter resets to 0 on the next successful call. -/
theorem claim_C5 (s : UploadRateLimiter) (retry_after : Option Nat) :
    (s.next_wait_seconds retry_after).2
        = rateLimitWait_spec (min (s.consecutive_406 + 1) (2 ^ 32 - 1)) retry_after
    ∧ (s.next_wait_seconds retry_after).1.consecutive_406
        = min (s.consecutive_406 + 1) (2 ^ 32 - 1)
    ∧ (UploadRateLimiter.reset s).consecutive_406 = 0 := by
  refine ⟨?_, ?_, rfl⟩
  · cases retry_after with
    | none =>
      dsimp only [UploadRateLimiter.next_wait_seconds, rateLimitWait_spec]
      exact rate_wait_exponent_cap _
    | some w =>
      dsimp only [UploadRateLimiter.next_wait_seconds, rateLimitWait_spec]
      by_cases hw : 0 < w
      · rw [if_pos hw, if_pos hw]
      · rw [if_neg hw, if_neg hw]
        exact rate_wait_exponent_cap _
  · cases retry_after with
    | none => rfl
    | some w =>
      dsimp only [UploadRateLimiter.next_wait_seconds]
      by_cases hw : 0 < w
      · rw [if_pos hw]
      · rw [if_neg hw]

theorem upload_retry_delay_exponent_cap (n : Nat) :
    upload_retry_delay_secs (n + 1)
      = min (UPLOAD_RETRY_BASE_DELAY_SECS * 2 ^ n) UPLOAD_RETRY_MAX_DELAY_SECS := by
  rw [upload_retry_delay_secs]
  have h0 : n + 1 - 1 = n := by omega
  rw [h0]
  by_cases h : n ≤ 5
  · rw [min_eq_left h]
  · have h1 : min n 5 = 5 := by omega
    have h2 : (2 : Nat) ^ 5 ≤ 2 ^ n := Nat.pow_le_pow_right (by norm_num) (by omega)
    have h3 : (2 : Nat) ^ 5 = 32 := by norm_num
    rw [h1]
    simp only [UPLOAD_RETRY_BASE_DELAY_SECS, UPLOAD_RETRY_MAX_DELAY_SECS]
    omega

theorem upload_retry_auth_shift (e : List Char) (hauth : is_auth_error e = true) :
    ∀ (k attempt : Nat)
      (rest : List (Except (List Char) UploadFileResult))
      (rrest : List (Except (List Char) Unit)),
      attempt + k < 2 ^ 32 →
      upload_segment_with_retry_model UPLOAD_SEGMENT_RETRY_LIMIT attempt
          (List.replicate k (.error e) ++ rest) (List.replicate k (.ok ()) ++ rrest)
        = { result := (upload_segment_with_retry_model UPLOAD_SEGMENT_RETRY_LIMIT
              (attempt + k) rest rrest).result,
            sleeps := (upload_segment_with_retry_model UPLOAD_SEGMENT_RETRY_LIMIT
              (attempt + k) rest rrest).sleeps,
            uploadAttempts := (upload_segment_with_retry_model UPLOAD_SEGMENT_RETRY_LIMIT
              (attempt + k) rest rrest).uploadAttempts + k } := by
  intro k
  induction k with
  | zero =>
    intro attempt rest rrest _
    simp only [List.replicate_zero, List.nil_append, Nat.add_zero]
  | succ k ih =>
    intro attempt rest rrest hlt
    simp only [List.replicate_succ, List.cons_append]
    rw [upload_segment_with_retry_model]
    have ha : min (attempt + 1) (2 ^ 32 - 1) = attempt + 1 := by omega
    dsimp only
    rw [ha, if_pos hauth, ih (attempt + 1) rest rrest (by omega)]
    have harg : attempt + 1 + k = attempt + (k + 1) := by omega
    rw [harg, Nat.add_assoc]

theorem upload_retry_attempts_le (outcomes : List (Except (List Char) UploadFileResult)) :
    ∀ (attempt : Nat) (rrest : List (Except (List Char) Unit)),
      (∀ o ∈ outcomes, ∀ e, o = .error e → is_auth_error e = false) →
      (upload_segment_with_retry_model UPLOAD_SEGMENT_RETRY_LIMIT attempt
          outcomes rrest).uploadAttempts
        ≤ max 1 (UPLOAD_SEGMENT_RETRY_LIMIT - attempt) := by
  induction outcomes with
  | nil =>
    intro attempt rrest _
    simp [upload_segment_with_retry_model]
  | cons o rest ih =>
    intro attempt rrest hno
    cases o with
    | ok r =>
      rw [upload_segment_with_retry_model]
      simp
    | error e =>
      rw [upload_segment_with_retry_model.eq_def]
      dsimp only
      rw [if_neg (by rw [hno (.error e) (by simp) e rfl]; simp)]
      by_cases hlim : UPLOAD_SEGMENT_RETRY_LIMIT ≤ min (attempt + 1) (2 ^ 32 - 1)
      · rw [if_pos hlim]
        simp only [UPLOAD_SEGMENT_RETRY_LIMIT] at *
        omega
      · rw [if_neg hlim]
        have ha : min (attempt + 1) (2 ^ 32 - 1) = attempt + 1 := by
          simp only [UPLOAD_SEGMENT_RETRY_LIMIT] at hlim
          omega
        rw [ha]
        have h2 := ih (attempt + 1) rrest (fun o ho ee he => hno o (by simp [ho]) ee he)
        simp only [UPLOAD_SEGMENT_RETRY_LIMIT] at *
        omega

/-- C6 counterexample: with outcomes [auth error, other error, other error,
success] and one successful refresh, the run fails after 3 total attempts —
the auth-triggered retry consumed attempt number 2, so only two non-auth
failures exhausted the limit of 3 and the available success was never
reached; under the claim (auth retries not counting) the fourth outcome
would have been attempted. -/
theorem claim_C6_counterexample :
    (upload_segment_with_retry_run
        [.error "code: -101".data, .error "e1".data, .error "e2".data, .ok ⟨1, "f"⟩]
        [.ok ()]).result = .failure "e2".data
    ∧ (upload_segment_with_retry_run
        [.error "code: -101".data, .error "e1".data, .error "e2".data, .ok ⟨1, "f"⟩]
        [.ok ()]).uploadAttempts = 3 := by
  refine ⟨?_, ?_⟩ <;> decide

/-- C6 amended: each segment upload is attempted up to
UPLOAD_SEGMENT_RETRY_LIMIT = 3 times with min(2 * 2^(n-1), 30) seconds
between attempts; an attempt failing with an auth error triggers a
credential refresh and an immediate retry that skips the limit check and the
sleep, but the retry still advances the shared attempt counter, so each
auth-error attempt reduces the remaining budget for non-auth failures. -/
theorem claim_C6 :
    UPLOAD_SEGMENT_RETRY_LIMIT = 3
    ∧ (∀ n : Nat, upload_retry_delay_secs (n + 1)
        = min (UPLOAD_RETRY_BASE_DELAY_SECS * 2 ^ n) UPLOAD_RETRY_MAX_DELAY_SECS)
    ∧ (∀ (e : List Char), is_auth_error e = true →
        ∀ (k attempt : Nat) (rest : List (Except (List Char) UploadFileResult))
          (rrest : List (Except (List Char) Unit)),
          attempt + k < 2 ^ 32 →
          upload_segment_with_retry_model UPLOAD_SEGMENT_RETRY_LIMIT attempt
              (List.replicate k (.error e) ++ rest) (List.replicate k (.ok ()) ++ rrest)
            = { result := (upload_segment_with_retry_model UPLOAD_SEGMENT_RETRY_LIMIT
                  (attempt + k) rest rrest).result,
                sleeps := (upload_segment_with_retry_model UPLOAD_SEGMENT_RETRY_LIMIT
                  (attempt + k) rest rrest).sleeps,
                uploadAttempts := (upload_segment_with_retry_model UPLOAD_SEGMENT_RETRY_LIMIT
                  (attempt + k) rest rrest).uploadAttempts + k })
    ∧ (∀ (outcomes : List (Except (List Char) UploadFileResult))
          (rrest : List (Except (List Char) Unit)),
        (∀ o ∈ outcomes, ∀ e, o = .error e → is_auth_error e = false) →
        (upload_segment_with_retry_run outcomes rrest).uploadAttempts
          ≤ UPLOAD_SEGMENT_RETRY_LIMIT) := by
  refine ⟨rfl, upload_retry_delay_exponent_cap, ?_, ?_⟩
  · intro e hauth k attempt rest rrest hlt
    exact upload_retry_auth_shift e hauth k attempt rest rrest hlt
  · intro outcomes rrest hno
    have h := upload_retry_attempts_le outcomes 0 rrest hno
    simpa [upload_segment_with_retry_run, UPLOAD_SEGMENT_RETRY_LIMIT] using h

/-- C6 witness: the amended statement instantiated at one auth-error attempt
followed by a success, and at a single non-auth failure. -/
theorem claim_C6_witness :
    upload_segment_with_retry_model UPLOAD_SEGMENT_RETRY_LIMIT 0
        (List.replicate 1 (.error "code: -101".data) ++ [.ok ⟨1, "f"⟩])
        (List.replicate 1 (.ok ()) ++ [])
      = { result := (upload_segment_with_retry_model UPLOAD_SEGMENT_RETRY_LIMIT
            (0 + 1) [.ok ⟨1, "f"⟩] []).result,
          sleeps := (upload_segment_with_retry_model UPLOAD_SEGMENT_RETRY_LIMIT
            (0 + 1) [.ok ⟨1, "f"⟩] []).sleeps,
          uploadAttempts := (upload_segment_with_retry_model UPLOAD_SEGMENT_RETRY_LIMIT
            (0 + 1) [.ok ⟨1, "f"⟩] []).uploadAttempts + 1 }
    ∧ (upload_segment_with_retry_run [.error "boom".data] []).uploadAttempts
        ≤ UPLOAD_SEGMENT_RETRY_LIMIT := by
  refine ⟨claim_C6.2.2.1 "code: -101".data (by decide) 1 0 [.ok ⟨1, "f"⟩] [] (by decide), ?_⟩
  refine claim_C6.2.2.2 [.error "boom".data] [] ?_
  intro o ho ee he
  simp only [List.mem_singleton] at ho
  subst ho
  cases he
  decide

theorem normalize_header_tag_zeroed (t : List Nat) (h : 11 ≤ t.length) :
    timestampZeroed (normalize_header_tag t) := by
  have hlen4 : (t.take 4).length = 4 := by
    rw [List.length_take]
    omega
  have hA : (t.take 4 ++ [0, 0, 0, 0]).length = 8 := by
    rw [List.length_append, hlen4]
    rfl
  rw [normalize_header_tag, if_pos h]
  refine ⟨?_, ?_, ?_, ?_⟩ <;>
    · rw [List.getElem?_append, if_pos (by omega),
        List.getElem?_append_right (by omega), hlen4]
      rfl

theorem cacheNormalized_new : cacheNormalized FlvHeaderCache.new := by
  refine ⟨?_, ?_, ?_⟩ <;> intro b hb <;> exact absurd hb (by simp [FlvHeaderCache.new])

theorem update_from_tag_normalized (c : FlvHeaderCache) (t : FlvTag)
    (h : 11 ≤ t.bytes.length) (hc : cacheNormalized c) :
    cacheNormalized (c.update_from_tag t) := by
  obtain ⟨hs, hv, ha⟩ := hc
  dsimp only [FlvHeaderCache.update_from_tag]
  split_ifs with h1 h2 h3 h4 h5 h6
  · refine ⟨?_, hv, ha⟩
    intro b hb
    simp only [Option.some.injEq] at hb
    subst hb
    exact normalize_header_tag_zeroed t.bytes h
  · exact ⟨hs, hv, ha⟩
  · refine ⟨hs, hv, ?_⟩
    intro b hb
    simp only [Option.some.injEq] at hb
    subst hb
    exact normalize_header_tag_zeroed t.bytes h
  · exact ⟨hs, hv, ha⟩
  · refine ⟨hs, ?_, ha⟩
    intro b hb
    simp only [Option.some.injEq] at hb
    subst hb
    exact normalize_header_tag_zeroed t.bytes h
  · exact ⟨hs, hv, ha⟩
  · exact ⟨hs, hv, ha⟩

theorem foldl_update_normalized (tags : List FlvTag) :
    ∀ (c : FlvHeaderCache), (∀ t ∈ tags, 11 ≤ t.bytes.length) → cacheNormalized c →
      cacheNormalized (tags.foldl FlvHeaderCache.update_from_tag c) := by
  induction tags with
  | nil =>
    intro c _ hc
    exact hc
  | cons t rest ih =>
    intro c hlen hc
    rw [List.foldl_cons]
    exact ih _ (fun u hu => hlen u (by simp [hu]))
      (update_from_tag_normalized c t (hlen t (by simp)) hc)

/-- C7: in a tag iteration of the record loop, a rotation happens only when
the current tag is a video keyframe and the updated header cache holds a
header, and the rotated-to segment consists of the cache preamble followed
immediately by the rotating tag itself — so the first tag written to the new
segment after its preamble is a video keyframe. -/
theorem claim_C7 (st : RecorderState) (tag : FlvTag) (split_signal : Bool)
    (st2 : RecorderState) (rotated : Bool)
    (hstep : process_tag_step st tag split_signal = .ok (st2, rotated))
    (hrot : rotated = true) :
    is_video_keyframe tag = true
    ∧ (st.cache.update_from_tag tag).has_header = true
    ∧ (∃ preamble, (st.cache.update_from_tag tag).write_preamble = .ok preamble
        ∧ st2.segment = some (preamble ++ [tag.bytes]))
    ∧ st2.segment_index = st.segment_index + 1 := by
  subst hrot
  dsimp only [process_tag_step] at hstep
  by_cases h1 : ((st.pending_split || split_signal) && is_video_keyframe tag : Bool)
  · rw [if_pos h1] at hstep
    by_cases h2 : ((st.cache.update_from_tag tag).has_header : Bool)
    · rw [if_pos h2] at hstep
      cases hpre : (st.cache.update_from_tag tag).write_preamble with
      | error e =>
        rw [hpre] at hstep
        exact absurd hstep (by simp)
      | ok preamble =>
        rw [hpre] at hstep
        simp only [Except.ok.injEq, Prod.mk.injEq] at hstep
        obtain ⟨h3, _⟩ := hstep
        refine ⟨(Bool.and_eq_true _ _ |>.mp h1).2, h2, ⟨preamble, rfl, ?_⟩, ?_⟩
        · rw [← h3]
        · rw [← h3]
    · rw [if_neg h2] at hstep
      simp only [Except.ok.injEq, Prod.mk.injEq] at hstep
      exact absurd hstep.2 (by simp)
  · rw [if_neg h1] at hstep
    simp only [Except.ok.injEq, Prod.mk.injEq] at hstep
    exact absurd hstep.2 (by simp)

/-- C7 witness: a concrete rotation — pending split, cached header, a
keyframe video tag — applied to the rotation theorem. -/
theorem claim_C7_witness :
    is_video_keyframe ⟨9, [9, 0, 0, 1, 0, 0, 0, 0, 0, 0, 0, 23, 0, 0, 0, 16], 11, 1⟩ = true
    ∧ ((RecorderState.mk ⟨some [70, 76, 86], none, none, none⟩ (some [[1]]) true
          0).cache.update_from_tag
          ⟨9, [9, 0, 0, 1, 0, 0, 0, 0, 0, 0, 0, 23, 0, 0, 0, 16], 11, 1⟩).has_header = true := by
  have h := claim_C7 ⟨⟨some [70, 76, 86], none, none, none⟩, some [[1]], true, 0⟩
    ⟨9, [9, 0, 0, 1, 0, 0, 0, 0, 0, 0, 0, 23, 0, 0, 0, 16], 11, 1⟩ true
    ⟨⟨some [70, 76, 86], none, none, none⟩,
      some [[70, 76, 86], [9, 0, 0, 1, 0, 0, 0, 0, 0, 0, 0, 23, 0, 0, 0, 16]], false, 1⟩
    true rfl rfl
  exact ⟨h.1, h.2.1⟩

/-- C8: opening a segment fails when no header is cached; with a cached
header the preamble is the header, then the cached script tag, then the
video codec-config tag, then the audio codec-config tag; and in any cache
built by `update_from_tag` from parser tags (whose frames are at least 11
bytes) every cached tag has its four timestamp bytes (positions 4-7)
zeroed. -/
theorem claim_C8 :
    (∀ c : FlvHeaderCache, c.header = none →
        c.write_preamble = Except.error "缺少FLV头信息")
    ∧ (∀ (c : FlvHeaderCache) (h : List Nat), c.header = some h →
        c.write_preamble = Except.ok ([h] ++ c.script_tag.toList
          ++ c.video_header.toList ++ c.audio_header.toList))
    ∧ (∀ tags : List FlvTag, (∀ t ∈ tags, 11 ≤ t.bytes.length) →
        cacheNormalized (tags.foldl FlvHeaderCache.update_from_tag FlvHeaderCache.new)) := by
  refine ⟨?_, ?_, ?_⟩
  · intro c hc
    rw [FlvHeaderCache.write_preamble, hc]
  · intro c h hc
    rw [FlvHeaderCache.write_preamble, hc]
  · intro tags hlen
    exact foldl_update_normalized tags FlvHeaderCache.new hlen cacheNormalized_new

/-- C8 witness: the empty cache rejects preamble writes; a cache holding
just a header writes exactly that header; and a cache fed one 15-byte
script tag stores it with zeroed timestamp bytes. -/
theorem claim_C8_witness :
    FlvHeaderCache.new.write_preamble = Except.error "缺少FLV头信息"
    ∧ (FlvHeaderCache.new.set_header [70, 76, 86]).write_preamble = Except.ok [[70, 76, 86]]
    ∧ timestampZeroed (normalize_header_tag (List.replicate 15 7)) := by
  refine ⟨claim_C8.1 FlvHeaderCache.new rfl,
    claim_C8.2.1 (FlvHeaderCache.new.set_header [70, 76, 86]) [70, 76, 86] rfl, ?_⟩
  exact (claim_C8.2.2 [⟨18, List.replicate 15 7, 11, 0⟩] (by decide)).1
    (normalize_header_tag (List.replicate 15 7)) (by decide)

/-- C9 counterexample: duration 100, configured start 50, configured end 10.
The effective start (50) is at least the effective end (10), but the pair is
normalized to (0, 10), not to (0, duration) = (0, 100): the configured
in-range end is kept when start is reset. -/
theorem claim_C9_counterexample :
    check_source_normalize (some 50) (some 10) 100
      = { start := 0, stop := 10, persisted_end := none, reset := true }
    ∧ (10 : ℚ) ≠ 100 := by
  refine ⟨?_, by decide⟩
  decide

/-- C9 amended: during the source-readiness probe, a configured end_time
above the probed duration is clamped to the duration and the clamped value
is persisted to the source row; when the effective start is negative or at
least the effective end, start is reset to 0 while end is reset to the
duration only when no end_time was configured — a configured, positive,
in-range end_time is kept. -/
theorem claim_C9 (start_opt end_opt : Option ℚ) (duration : ℚ) :
    (∀ ce, end_opt = some ce → duration < ce →
        (check_source_normalize start_opt end_opt duration).stop = duration
        ∧ (check_source_normalize start_opt end_opt duration).persisted_end
            = some duration)
    ∧ (end_opt = none →
        (start_opt.getD 0 < 0 ∨ duration ≤ start_opt.getD 0) →
        (check_source_normalize start_opt end_opt duration).start = 0
        ∧ (check_source_normalize start_opt end_opt duration).stop = duration)
    ∧ (∀ ce, end_opt = some ce → 0 < ce → ce ≤ duration →
        (start_opt.getD 0 < 0 ∨ ce ≤ start_opt.getD 0) →
        (check_source_normalize start_opt end_opt duration).start = 0
        ∧ (check_source_normalize start_opt end_opt duration).stop = ce) := by
  refine ⟨?_, ?_, ?_⟩
  · intro ce hce hlt
    subst hce
    dsimp only [check_source_normalize]
    rw [if_pos hlt]
    by_cases hs : (start_opt.getD 0 < 0 ∨ (duration : ℚ) ≤ start_opt.getD 0)
    · rw [if_pos hs]
      exact ⟨rfl, rfl⟩
    · rw [if_neg hs]
      exact ⟨rfl, rfl⟩
  · intro hnone hs
    subst hnone
    dsimp only [check_source_normalize]
    rw [if_pos hs]
    exact ⟨rfl, rfl⟩
  · intro ce hce hpos hle hs
    subst hce
    simp only [check_source_normalize, Option.getD_some, Option.isNone_some]
    rw [if_neg (show ¬ duration < ce from not_lt.mpr hle),
      if_neg (show ¬ ce ≤ 0 from not_le.mpr hpos)]
    dsimp only
    rw [if_pos hs]
    exact ⟨rfl, rfl⟩

/-- C9 witness: the amended statement applied to the clamp scenario
(end 200 above duration 100) and to the keep-configured-end scenario
(start 50 at or above the configured end 10). -/
theorem claim_C9_witness :
    ((check_source_normalize (some 7) (some 200) 100).stop = 100
      ∧ (check_source_normalize (some 7) (some 200) 100).persisted_end = some 100)
    ∧ ((check_source_normalize (some 50) (some 10) 100).start = 0
      ∧ (check_source_normalize (some 50) (some 10) 100).stop = 10) := by
  refine ⟨claim_C9 (some 7) (some 200) 100 |>.1 200 rfl (by decide), ?_⟩
  exact (claim_C9 (some 50) (some 10) 100).2.2 10 rfl (by decide) (by decide)
    (Or.inr (by decide))

theorem build_danmaku_packet_length (op : Nat) (body : List Nat) :
    (build_danmaku_packet op body).length = 16 + body.length := by
  simp [build_danmaku_packet, u32be, u16be]
  omega

theorem build_danmaku_packet_readU32be (op : Nat) (body : List Nat) :
    readU32be (build_danmaku_packet op body) = (16 + body.length) % 2 ^ 32 := by
  simp [build_danmaku_packet, u32be, u16be, readU32be]
  omega

theorem build_danmaku_packet_header_len (op : Nat) (body : List Nat) :
    readU16be ((build_danmaku_packet op body).drop 4) = 16 := by
  simp [build_danmaku_packet, u32be, u16be, readU16be]

theorem build_danmaku_packet_version (op : Nat) (body : List Nat) :
    readU16be ((build_danmaku_packet op body).drop 6) = 1 := by
  simp [build_danmaku_packet, u32be, u16be, readU16be]

theorem build_danmaku_packet_op (op : Nat) (body : List Nat) :
    readU32be ((build_danmaku_packet op body).drop 8) = op % 2 ^ 32 := by
  simp [build_danmaku_packet, u32be, u16be, readU32be]
  omega

theorem build_danmaku_packet_drop16 (op : Nat) (body : List Nat) :
    (build_danmaku_packet op body).drop 16 = body := by
  simp [build_danmaku_packet, u32be, u16be]

theorem parse_danmaku_packets_go_nil (fuel : Nat) (h : 0 < fuel) :
    parse_danmaku_packets_go fuel [] = .ok [] := by
  cases fuel with
  | zero => omega
  | succ k =>
    rw [parse_danmaku_packets_go]
    rw [if_pos (by simp)]

/-- C10 counterexample: a body of exactly 2^32 - 16 bytes makes the u32
packet_len wrap to 0; the parser then computes body_start = 16 past
body_end = 0 and the Rust slice `data[16..0]` panics (modelled as an
error), so the round trip fails and the emitted packet_len is not
16 + body length. -/
theorem claim_C10_counterexample :
    parse_danmaku_packets
        (build_danmaku_packet 5 (List.replicate (2 ^ 32 - 16) 0))
      ≠ Except.ok [⟨5, 1, List.replicate (2 ^ 32 - 16) 0⟩] := by
  have hN : (List.replicate (2 ^ 32 - 16) (0 : Nat)).length = 2 ^ 32 - 16 :=
    List.length_replicate _ _
  have hlen : (build_danmaku_packet 5 (List.replicate (2 ^ 32 - 16) 0)).length
      = 16 + (2 ^ 32 - 16) := by
    rw [build_danmaku_packet_length, hN]
  have hmod : (16 + (2 ^ 32 - 16)) % 2 ^ 32 = 0 := by
    have h1 : 16 + (2 ^ 32 - 16) = 2 ^ 32 := by norm_num
    rw [h1, Nat.mod_self]
  have hpk : readU32be (build_danmaku_packet 5 (List.replicate (2 ^ 32 - 16) 0)) = 0 := by
    rw [build_danmaku_packet_readU32be, hN, hmod]
  have hparse : parse_danmaku_packets
      (build_danmaku_packet 5 (List.replicate (2 ^ 32 - 16) 0))
      = Except.error "slice panic" := by
    unfold parse_danmaku_packets
    rw [hlen]
    rw [parse_danmaku_packets_go]
    dsimp only
    rw [if_neg (by rw [hlen]; norm_num)]
    rw [hpk, build_danmaku_packet_header_len, hlen]
    rw [if_neg (by norm_num)]
    rw [if_pos (by norm_num)]
  intro hcon
  rw [hparse] at hcon
  exact Except.noConfusion hcon

/-- C10 amended: for every opcode op < 2^32 and every body with
body length + 16 < 2^32 (no u32 overflow of packet_len), parsing the bytes
produced by build_danmaku_packet yields exactly one packet with that op,
protocol version 1 and that body — in particular the zlib (version 2) and
Brotli (version 3) branches, modelled as errors, are not taken.  Bodies of
2^32 - 16 bytes or more wrap packet_len and break the round trip. -/
theorem claim_C10 (op : Nat) (body : List Nat) (hop : op < 2 ^ 32)
    (hlen16 : body.length + 16 < 2 ^ 32) :
    parse_danmaku_packets (build_danmaku_packet op body)
      = Except.ok [⟨op, 1, body⟩] := by
  have hlen : (build_danmaku_packet op body).length = 16 + body.length :=
    build_danmaku_packet_length op body
  have hpk : readU32be (build_danmaku_packet op body) = 16 + body.length := by
    rw [build_danmaku_packet_readU32be, Nat.mod_eq_of_lt (by omega)]
  have hopv : readU32be ((build_danmaku_packet op body).drop 8) = op := by
    rw [build_danmaku_packet_op, Nat.mod_eq_of_lt hop]
  have hbody : ((build_danmaku_packet op body).drop 16).take (16 + body.length - 16)
      = body := by
    rw [build_danmaku_packet_drop16]
    have h1 : 16 + body.length - 16 = body.length := by omega
    rw [h1, List.take_length]
  have hrest : (build_danmaku_packet op body).drop (16 + body.length) = [] := by
    rw [← hlen, List.drop_length]
  unfold parse_danmaku_packets
  rw [hlen]
  rw [parse_danmaku_packets_go]
  dsimp only
  rw [if_neg (by rw [hlen]; omega)]
  rw [hpk, build_danmaku_packet_header_len, build_danmaku_packet_version, hopv, hlen]
  rw [if_neg (by omega)]
  rw [if_neg (by omega)]
  rw [if_neg (by omega)]
  rw [if_neg (by omega)]
  rw [hbody, hrest, parse_danmaku_packets_go_nil _ (by omega)]

/-- C10 witness: the round trip at op 7 and body [1, 2, 3]. -/
theorem claim_C10_witness :
    parse_danmaku_packets (build_danmaku_packet 7 [1, 2, 3])
      = Except.ok [⟨7, 1, [1, 2, 3]⟩] :=
  claim_C10 7 [1, 2, 3] (by decide) (by decide)

end ReactionCut
